import Mathlib

/-!
Verification of the spicedocs-mcp repository (a cached, searchable mirror of
an HTML documentation tree exposed through query tools).

The Python sources `cache.py` and `server.py` are shallowly embedded below.
External collaborators (the httpx HTTP client, the BeautifulSoup HTML parser,
the sqlite storage engine and the operating-system filesystem) are modelled
as explicit oracles or abstract state, while every function of the repository
itself is translated line by line.  Machine reals appearing only as opaque
stored values (file modification times) are modelled as integers, since the
code never computes with them.
-/

namespace SpiceDocs

/-! ## Python-level error values

Each constructor corresponds to an exception class that the embedded code can
raise or catch.  `ioError` covers the Python `IOError`/`OSError` family. -/

inductive PyErr where
  | attributeError
  | ioError
  | jsonDecodeError
  | unicodeDecodeError
  | httpStatusError (code : Nat)
  | connectError
  | timeoutError
  | operationalError
  deriving DecidableEq, Repr

/-! ## A small JSON value model

`json.load` can return any JSON value, not only objects; `dict.get` is only
available on objects and raises `AttributeError` on anything else. -/

inductive Json where
  | null
  | bool (b : Bool)
  | num (n : Int)
  | str (s : String)
  | arr (elems : List Json)
  | obj (fields : List (String × Json))

/-- Python truthiness of a JSON value (`if not x`). -/
def Json.truthy : Json → Bool
  | .null => false
  | .bool b => b
  | .num n => n != 0
  | .str s => s != ""
  | .arr l => !l.isEmpty
  | .obj l => !l.isEmpty

/-- Lookup of a key in a JSON object field list (first binding wins, as in a
Python dict there is at most one). -/
def jsonObjGet (fields : List (String × Json)) (key : String) (dflt : Json) : Json :=
  match fields.find? (fun kv => kv.1 = key) with
  | some kv => kv.2
  | none => dflt

/-! ## Cache validation (`cache.py`, `is_cache_valid`)

The filesystem state relevant to `is_cache_valid` is: the state of the
`.cache_version` manifest file, whether the `naif.jpl.nasa.gov` directory
exists, and how many `*.html` files live under it.  A directory that does not
exist contains no files, which the field `docDirAbsentNoFiles` records. -/

/-- State of the `.cache_version` manifest file: absent; unreadable
(`open`/read raises `IOError`); present but with bytes that do not decode
under the text codec, so the read inside `json.load` raises
`UnicodeDecodeError`; present and decodable but not valid JSON
(`json.load` raises `JSONDecodeError`); or present with a parsed JSON
value. -/
inductive ManifestFile where
  | missing
  | unreadable
  | undecodable
  | notJson
  | json (v : Json)

structure CacheFS where
  manifest : ManifestFile
  docDirExists : Bool
  htmlCount : Nat
  docDirAbsentNoFiles : docDirExists = false → htmlCount = 0


/-- `MIN_FILE_COUNT` from `cache.py`. -/
def MIN_FILE_COUNT : Nat := 500

/-- Shallow embedding of `is_cache_valid` (`cache.py` lines 42-93).  The
`try` block wraps `open`/read, `json.load` and the `completed` lookup and
catches exactly `json.JSONDecodeError` and `IOError`; two faults escape that
handler and propagate: the `UnicodeDecodeError` raised by the read inside
`json.load` on manifest bytes that do not decode as text, and the
`AttributeError` raised by `version_data.get` on a JSON value that is not an
object.  The embedding surfaces both as `Except.error`. -/
def is_cache_valid (fs : CacheFS) : Except PyErr Bool :=
  match fs.manifest with
  | .missing => .ok false
  | .unreadable => .ok false
  | .undecodable => .error .unicodeDecodeError
  | .notJson => .ok false
  | .json v =>
    match v with
    | .obj fields =>
      if !(jsonObjGet fields "completed" (.bool false)).truthy then .ok false
      else if !fs.docDirExists then .ok false
      else if fs.htmlCount < MIN_FILE_COUNT then .ok false
      else .ok true
    | _ => .error .attributeError

/-- The individual checks of `is_cache_valid`, used to talk about
short-circuit order. -/
inductive CacheCheck where
  | manifestMissing
  | manifestUnparseable
  | notCompleted
  | docDirMissing
  | insufficientFiles
  deriving DecidableEq, Repr

/-- The first failing check of `is_cache_valid`, in the order the code
evaluates them (each corresponds to one early `return False` with its own
debug log message); `none` means the cache is valid.  The uncatchable
raising corners (`UnicodeDecodeError` on undecodable bytes, `AttributeError`
on a non-object JSON value) are reported as `manifestUnparseable` here; they
are irrelevant to the inputs this function is used on. -/
def is_cache_valid_firstFailure (fs : CacheFS) : Option CacheCheck :=
  match fs.manifest with
  | .missing => some .manifestMissing
  | .unreadable => some .manifestUnparseable
  | .undecodable => some .manifestUnparseable
  | .notJson => some .manifestUnparseable
  | .json v =>
    match v with
    | .obj fields =>
      if !(jsonObjGet fields "completed" (.bool false)).truthy then some .notCompleted
      else if !fs.docDirExists then some .docDirMissing
      else if fs.htmlCount < MIN_FILE_COUNT then some .insufficientFiles
      else none
    | _ => some .manifestUnparseable

/-- Modelled from the claim wording, for comparison: the same checks
short-circuiting in the order the claim states them (manifest absent,
completed flag false, HTML file count below threshold, documentation
directory absent). -/
def claimOrder_firstFailure (fs : CacheFS) : Option CacheCheck :=
  match fs.manifest with
  | .missing => some .manifestMissing
  | .unreadable => some .manifestUnparseable
  | .undecodable => some .manifestUnparseable
  | .notJson => some .manifestUnparseable
  | .json v =>
    match v with
    | .obj fields =>
      if !(jsonObjGet fields "completed" (.bool false)).truthy then some .notCompleted
      else if fs.htmlCount < MIN_FILE_COUNT then some .insufficientFiles
      else if !fs.docDirExists then some .docDirMissing
      else none
    | _ => some .manifestUnparseable

/-! ## URL parsing and `should_download` (`cache.py`, lines 96-131)

`should_download` only consults `urlparse(url).netloc` and `.path`; we embed
the part of `urllib.parse.urlsplit` computing those two components: an
optional scheme (an ASCII letter followed by letters, digits, `+`, `-`, `.`
up to a colon), then a netloc after a leading `//` running up to the next
`/`, `?` or `#`, then the path running up to the next `?` or `#`. -/

def isSchemeChar (c : Char) : Bool :=
  c.isAlpha || c.isDigit || c == '+' || c == '-' || c == '.'

/-- Drop a leading `scheme:` if present, returning the remainder; mirrors the
scheme-splitting step of `urllib.parse.urlsplit`: the text before the first
colon counts as a scheme when it is an ASCII letter followed by scheme
characters. -/
def dropScheme (l : List Char) : List Char :=
  match l.dropWhile isSchemeChar with
  | ':' :: rest =>
    match l.takeWhile isSchemeChar with
    | c :: _ => if c.isAlpha then rest else l
    | [] => l
  | _ => l

def notNetlocEnd (c : Char) : Bool :=
  !(c == '/' || c == '?' || c == '#')

def notPathEnd (c : Char) : Bool :=
  !(c == '?' || c == '#')

/-- The `netloc` and `path` components of `urllib.parse.urlparse`, which are
all that `should_download` consults. -/
def urlNetlocPath (url : String) : String × String :=
  match dropScheme url.data with
  | '/' :: '/' :: rest =>
    (String.mk (rest.takeWhile notNetlocEnd),
     String.mk ((rest.dropWhile notNetlocEnd).takeWhile notPathEnd))
  | other => ("", String.mk (other.takeWhile notPathEnd))

/-- Python `str.startswith`. -/
def pyStartsWith (s p : String) : Bool :=
  p.data.isPrefixOf s.data

/-- Python `str.endswith`. -/
def pyEndsWith (s p : String) : Bool :=
  p.data.isSuffixOf s.data

/-- Shallow embedding of `should_download` (`cache.py` lines 96-131). -/
def should_download (url base_url : String) : Bool :=
  let parsed := urlNetlocPath url
  let base_parsed := urlNetlocPath base_url
  if parsed.1 != "" && parsed.1 != base_parsed.1 then false
  else if !(pyStartsWith parsed.2 "/pub/naif/toolkit_docs/C/") then false
  else if !(pyEndsWith parsed.2 ".html" || pyEndsWith parsed.2 "/") then false
  else true

/-! ## Retry logic (`cache.py`, `download_with_retry`, lines 134-191)

The HTTP client is an oracle mapping the attempt number to the outcome of
`client.get` for the fixed URL: either a response with a status code, or a
raised `httpx.ConnectError` / `httpx.TimeoutException`.  `raise_for_status`
raises `httpx.HTTPStatusError` exactly on non-2xx codes. -/

inductive FetchOutcome where
  | status (code : Nat)
  | connectError
  | timeoutError
  deriving DecidableEq, Repr

/-- Result of a run of `download_with_retry`:
`returned a` is a `return response` on attempt `a` (zero-based),
`raised a e` is an exception propagating out of attempt `a`, and
`fellThrough` is the loop body never executing, in which case the Python
function returns `None`. -/
inductive RetryResult where
  | returned (attempt : Nat)
  | raised (attempt : Nat) (e : PyErr)
  | fellThrough
  deriving DecidableEq, Repr

/-- The body of the `for attempt in range(max_retries)` loop, following the
source case by case.  Besides the result it returns the list of backoff
sleeps performed (in seconds) and the number of HTTP requests issued. -/
def retryLoop (oracle : Nat → FetchOutcome) (max_retries : Int) :
    Nat → Nat → RetryResult × List Nat × Nat
  | _, 0 => (.fellThrough, [], 0)
  | attempt, remaining + 1 =>
    match oracle attempt with
    | .status code =>
      if 200 ≤ code && code < 300 then (.returned attempt, [], 1)
      else if code == 404 then (.raised attempt (.httpStatusError 404), [], 1)
      else if 500 ≤ code then
        if (attempt : Int) < max_retries - 1 then
          let rec_ := retryLoop oracle max_retries (attempt + 1) remaining
          (rec_.1, 2 ^ attempt :: rec_.2.1, rec_.2.2 + 1)
        else (.raised attempt (.httpStatusError code), [], 1)
      else (.raised attempt (.httpStatusError code), [], 1)
    | .connectError =>
      if (attempt : Int) < max_retries - 1 then
        let rec_ := retryLoop oracle max_retries (attempt + 1) remaining
        (rec_.1, 2 ^ attempt :: rec_.2.1, rec_.2.2 + 1)
      else (.raised attempt .connectError, [], 1)
    | .timeoutError =>
      if (attempt : Int) < max_retries - 1 then
        let rec_ := retryLoop oracle max_retries (attempt + 1) remaining
        (rec_.1, 2 ^ attempt :: rec_.2.1, rec_.2.2 + 1)
      else (.raised attempt .timeoutError, [], 1)

/-- Shallow embedding of `download_with_retry` (`cache.py` lines 134-191):
`range(max_retries)` iterates `max(max_retries, 0)` times starting at
attempt 0. -/
def download_with_retry (oracle : Nat → FetchOutcome) (max_retries : Int) :
    RetryResult × List Nat × Nat :=
  retryLoop oracle max_retries 0 max_retries.toNat

/-! ## Crawl atomicity (`cache.py`, `download_documentation`, lines 194-338)

For the atomicity claim only the filesystem effects matter, so the crawl is
modelled at the level of the filesystem operations the function issues.  The
state consists of the final destination tree and the temporary tree (each
`none` when the directory is absent, otherwise the list of saved files).
The BFS loop performs network and parsing work that never touches the
destination; each successfully downloaded page contributes one file write
under the temporary directory, so a run of the loop is abstracted to the
list of page writes it performed before either finishing or failing.
Filesystem primitives (`shutil.rmtree`, `Path.rename`, `mkdir`) are modelled
as atomic; failures are modelled where the code expects them, inside the
crawl loop (network errors, disk shortage, write errors). -/

abbrev MirrorTree := List (String × String)

/-- Write a file into a tree, replacing any previous content at that path. -/
def treeWrite (t : MirrorTree) (p c : String) : MirrorTree :=
  if t.any (fun e => e.1 = p) then
    t.map (fun e => if e.1 = p then (p, c) else e)
  else t ++ [(p, c)]

structure CrawlFS where
  dest : Option MirrorTree
  tmp : Option MirrorTree
  deriving DecidableEq, Repr

/-- One filesystem operation issued by `download_documentation`. -/
inductive FsOp where
  | rmtreeTmp
  | mkdirTmp
  | saveTmpFile (p c : String)
  | writeManifestTmp (m : String)
  | rmtreeDest
  | renameTmpToDest
  deriving DecidableEq, Repr

def applyOp (s : CrawlFS) : FsOp → CrawlFS
  | .rmtreeTmp => { s with tmp := none }
  | .mkdirTmp => { s with tmp := some [] }
  | .saveTmpFile p c => { s with tmp := s.tmp.map (fun t => treeWrite t p c) }
  | .writeManifestTmp m =>
    { s with tmp := s.tmp.map (fun t => treeWrite t ".cache_version" m) }
  | .rmtreeDest => { s with dest := none }
  | .renameTmpToDest => { dest := s.tmp, tmp := none }

def runOps (s : CrawlFS) : List FsOp → CrawlFS
  | [] => s
  | op :: rest => runOps (applyOp s op) rest

/-- Every state passed through while running `ops` from `s`, the initial and
final states included. -/
def statesTrace (s : CrawlFS) : List FsOp → List CrawlFS
  | [] => [s]
  | op :: rest => s :: statesTrace (applyOp s op) rest

/-- The filesystem operations issued by one run of `download_documentation`
(`cache.py` lines 194-338) on initial state `s`:
leftover temporary directory removed and recreated (lines 217-222); the BFS
loop saves `pages` under the temporary directory (line 277); if the `try`
block raises after those saves (`failed = true`), the handler removes the
temporary directory and re-raises (lines 334-338); otherwise the manifest is
written into the temporary directory (lines 323-325), a pre-existing
destination is removed (lines 328-329) and the temporary directory is renamed
onto the destination (line 331).  No operation before line 328 touches the
destination, so the `cache_dir.exists()` test at line 328 reads `s.dest`. -/
def download_documentation (s : CrawlFS) (pages : List (String × String))
    (failed : Bool) (manifest : String) : List FsOp :=
  (if s.tmp.isSome then [FsOp.rmtreeTmp] else []) ++ [FsOp.mkdirTmp] ++
    pages.map (fun pc => FsOp.saveTmpFile pc.1 pc.2) ++
    (if failed then [FsOp.rmtreeTmp]
     else [FsOp.writeManifestTmp manifest] ++
       (if s.dest.isSome then [FsOp.rmtreeDest] else []) ++
       [FsOp.renameTmpToDest])

/-- The tree published on a successful crawl: the downloaded pages plus the
manifest file. -/
def crawledTree (pages : List (String × String)) (manifest : String) : MirrorTree :=
  treeWrite (pages.foldl (fun t pc => treeWrite t pc.1 pc.2) []) ".cache_version" manifest

/-- Number of operations in a list that mutate the final destination. -/
def destOpCount (ops : List FsOp) : Nat :=
  ops.countP (fun op => op = FsOp.rmtreeDest || op = FsOp.renameTmpToDest)

/-! ## POSIX path semantics used by `server.py`

`server.py` manipulates `pathlib.Path` values.  A path is parsed into an
absolute flag and its components (`PurePosixPath.parts`); empty components
and `.` are dropped, `..` is kept.  `Path.resolve` (no symbolic links in the
model) makes the path absolute and eliminates `..` components, clamping at
the filesystem root; `Path.relative_to(root)` succeeds exactly when `root`
is a prefix of the resolved component list.  `os.path.normpath` eliminates
`..` purely lexically, keeping leading `..` components of relative paths. -/

structure PyPath where
  absolute : Bool
  segs : List String
  deriving DecidableEq, Repr

def splitSlashAux : List Char → List Char → List String
  | [], acc => [String.mk acc.reverse]
  | '/' :: rest, acc => String.mk acc.reverse :: splitSlashAux rest []
  | c :: rest, acc => splitSlashAux rest (c :: acc)

def parsePath (s : String) : PyPath :=
  { absolute := pyStartsWith s "/"
    segs := (splitSlashAux s.data []).filter (fun seg => !(seg == "") && !(seg == ".")) }

/-- `pathlib` join: `root / p` discards `root` when `p` is absolute. -/
def joinUnderRoot (root : List String) (p : PyPath) : List String :=
  if p.absolute then p.segs else root ++ p.segs

/-- `Path.resolve` on an absolute component list (no symbolic links). -/
def resolveSegs (segs : List String) : List String :=
  segs.foldl (fun acc seg => if seg == ".." then acc.dropLast else acc ++ [seg]) []

/-- `os.path.normpath` on the component list of a path. -/
def normpathSegs (absolute : Bool) (segs : List String) : List String :=
  segs.foldl
    (fun acc seg =>
      if seg == ".." then
        if acc.isEmpty || acc.getLast? == some ".." then
          if absolute then acc else acc ++ [".."]
        else acc.dropLast
      else acc ++ [seg]) []

/-- `Path.stem`: the final component without its last suffix (a leading dot
alone does not start a suffix). -/
def stemChars (cs : List Char) : List Char :=
  match cs.reverse.dropWhile (fun c => !(c == '.')) with
  | '.' :: rest => if rest.isEmpty then cs else rest.reverse
  | _ => cs

def stemOf (segs : List String) : String :=
  match segs.getLast? with
  | some name => String.mk (stemChars name.data)
  | none => ""

/-! ## The archive filesystem and the HTML parser collaborator

The mirror seen by the query tools: a set of files (each mapping its
resolved absolute path to the result of `open(...).read()`, which may raise)
and a set of directories.  `open` on a directory raises `IsADirectoryError`.
BeautifulSoup is an external collaborator, modelled as a bundle of total
extraction functions on the raw file text: the stripped text of the `title`
element if present, the visible text with script/style removed and
whitespace collapsed, the `(href, stripped text)` pairs of the href-bearing
anchor elements, and the `href` attribute of a canonical link element if
that element is present. -/

structure ArchiveFS where
  files : List (List String × Except PyErr String)
  dirs : List (List String)

def isFile (fs : ArchiveFS) (p : List String) : Bool :=
  fs.files.any (fun e => e.1 == p)

def isDir (fs : ArchiveFS) (p : List String) : Bool :=
  fs.dirs.any (fun d => d == p)

def pathExists (fs : ArchiveFS) (p : List String) : Bool :=
  isFile fs p || isDir fs p

/-- `open(p, errors=ignore).read()`: raises `IsADirectoryError` on a
directory, otherwise yields the outcome recorded for the file. -/
def readFile (fs : ArchiveFS) (p : List String) : Except PyErr String :=
  if isDir fs p then .error .ioError
  else match fs.files.find? (fun e => e.1 == p) with
  | some e => e.2
  | none => .error .ioError

structure SoupOps where
  titleOf : String → Option String
  textOf : String → String
  anchorsOf : String → List (String × String)
  canonicalOf : String → Option String

/-! ## `get_page` (`server.py` lines 200-252) -/

/-- The resolved absolute location of a user-supplied `path` string, as
computed by `(archive_path / path).resolve()`. -/
def resolveUserPath (root : List String) (path : String) : List String :=
  resolveSegs (joinUnderRoot root (parsePath path))

/-- The success response of `get_page` for raw file text `content`. -/
def pageResponse (soup : SoupOps) (resolved : List String) (path : String)
    (include_raw : Bool) (content : String) : String :=
  let title :=
    match soup.titleOf content with
    | some t => t
    | none => stemOf resolved
  let text_content := soup.textOf content
  let response := "# " ++ title ++ "\n\n**Path:** " ++ path ++ "\n**File size:** " ++
    toString content.length ++ " bytes\n\n**Content:**\n" ++ text_content
  if include_raw then
    response ++ "\n\n**Raw HTML:**\n\x60\x60\x60html\n" ++ content ++ "\n\x60\x60\x60"
  else response

/-- Shallow embedding of the `get_page` tool (`server.py` lines 200-252).
The trailing `except Exception` of the source catches every fault of the
read-and-parse block and turns it into a text payload. -/
def get_page (soup : SoupOps) (fs : ArchiveFS) (archive_path : Option (List String))
    (path : String) (include_raw : Bool) : String :=
  match archive_path with
  | none => "Error: Archive path not initialized"
  | some root =>
    let safe_path := resolveUserPath root path
    if !(root.isPrefixOf safe_path) then
      "Error: Path \x27" ++ path ++ "\x27 is outside the archive or invalid"
    else if !(pathExists fs safe_path) then
      "Error: File \x27" ++ path ++ "\x27 not found in archive"
    else
      match readFile fs safe_path with
      | .error _ => "Error reading file \x27" ++ path ++ "\x27: ..."
      | .ok content => pageResponse soup safe_path path include_raw content

/-! ## `extract_links` (`server.py` lines 304-391) -/

def notHash (c : Char) : Bool := !(c == '#')

def notQmark (c : Char) : Bool := !(c == '?')

/-- `href.split(hash)[0].split(qmark)[0]`. -/
def stripFragQuery (href : String) : String :=
  String.mk ((href.data.takeWhile notHash).takeWhile notQmark)

/-- The resolved absolute location an anchor `href` points at, as computed by
the body of the `internal_only` branch (`server.py` lines 356-371): leading
slash means archive-root-relative after stripping the slashes, otherwise the
reference is taken relative to the current file directory; the result is
lexically normalized, joined under the archive root and resolved. -/
def linkResolved (root : List String) (path : String) (base_href : String) : List String :=
  let current_dir : PyPath :=
    { absolute := (parsePath path).absolute, segs := (parsePath path).segs.dropLast }
  let link_path : PyPath :=
    if pyStartsWith base_href "/" then
      { absolute := false, segs := (parsePath base_href).segs }
    else
      { absolute := current_dir.absolute, segs := current_dir.segs ++ (parsePath base_href).segs }
  let norm : PyPath :=
    { absolute := link_path.absolute, segs := normpathSegs link_path.absolute link_path.segs }
  resolveSegs (joinUnderRoot root norm)

/-- Whether the anchor-scanning loop of `extract_links` keeps an `href`
(`server.py` lines 337-378). -/
def keepAnchor (fs : ArchiveFS) (root : List String) (path : String)
    (internal_only : Bool) (href : String) : Bool :=
  if !internal_only then true
  else if pyStartsWith href "http" then false
  else
    let base_href := stripFragQuery href
    if base_href == "" then pyStartsWith href "#"
    else
      let full := linkResolved root path base_href
      root.isPrefixOf full && pathExists fs full

/-- The list of `(href, text)` pairs collected by `extract_links`. -/
def extract_links_list (fs : ArchiveFS) (root : List String)
    (anchors : List (String × String)) (path : String) (internal_only : Bool) :
    List (String × String) :=
  anchors.filter (fun a => keepAnchor fs root path internal_only a.1)

def renderLink (l : String × String) : String :=
  "• [" ++ (if l.2 == "" then "No text" else l.2) ++ "](" ++ l.1 ++ ")\n"

/-- The success response of `extract_links`. -/
def linksResponse (path : String) (internal_only : Bool)
    (links : List (String × String)) : String :=
  if links.isEmpty then
    "No " ++ (if internal_only then "internal " else "") ++ "links found in \x27" ++
      path ++ "\x27"
  else
    "Found " ++ toString links.length ++ " " ++
      (if internal_only then "internal " else "") ++ "links in \x27" ++ path ++
      "\x27:\n\n" ++ String.join (links.map renderLink)

/-- Shallow embedding of the `extract_links` tool (`server.py` lines
304-391). -/
def extract_links (soup : SoupOps) (fs : ArchiveFS) (archive_path : Option (List String))
    (path : String) (internal_only : Bool) : String :=
  match archive_path with
  | none => "Error: Archive path not initialized"
  | some root =>
    let safe_path := resolveUserPath root path
    if !(root.isPrefixOf safe_path) then
      "Error: Invalid path \x27" ++ path ++ "\x27"
    else if !(pathExists fs safe_path) then
      "Error: File \x27" ++ path ++ "\x27 not found"
    else
      match readFile fs safe_path with
      | .error _ => "Error extracting links from \x27" ++ path ++ "\x27: ..."
      | .ok content =>
        linksResponse path internal_only
          (extract_links_list fs root (soup.anchorsOf content) path internal_only)

/-! ## `search_archive`, `list_pages`, `get_archive_stats`
(`server.py` lines 148-197, 255-301, 394-430)

The sqlite connection is an external collaborator.  The FTS5 `MATCH` query
of `search_archive` parses the query string with the FTS5 query grammar and
raises `sqlite3.OperationalError` on malformed input (for example an empty
query or an unbalanced double quote); `search_archive` wraps it in no
`try`/`except`, so that fault propagates out of the tool.  The `LIKE`
fallback and the `GLOB` of `list_pages` bind the user string as a parameter
and cannot raise for any input, so they are modelled as total functions. -/

structure SearchRow where
  path : String
  title : String
  url : String
  snippet : String

def renderSearchRow (i : Nat) (r : SearchRow) : String :=
  toString i ++ ". **" ++ r.title ++ "**\n   Path: " ++ r.path ++ "\n" ++
    (if r.url == r.path then "" else "   Original URL: " ++ r.url ++ "\n") ++
    "   Snippet: " ++ r.snippet ++ "\n\n"

def renderSearchRows (i : Nat) : List SearchRow → String
  | [] => ""
  | r :: rest => renderSearchRow i r ++ renderSearchRows (i + 1) rest

def searchResponse (query : String) (results : List SearchRow) : String :=
  if results.isEmpty then "No results found for query: \x27" ++ query ++ "\x27"
  else
    "Found " ++ toString results.length ++ " results for \x27" ++ query ++
      "\x27:\n\n" ++ renderSearchRows 1 results

/-- Shallow embedding of the `search_archive` tool (`server.py` lines
148-197).  `ftsQuery` models the FTS5 `MATCH` statement (fallible),
`likeQuery` the `LIKE` fallback statement (total). -/
def search_archive (ftsQuery : String → Int → Except PyErr (List SearchRow))
    (likeQuery : String → Int → List SearchRow) (db_conn : Bool)
    (fts_available : Bool) (query : String) (limit : Int) : Except PyErr String :=
  if !db_conn then .ok "Error: Database not initialized"
  else if fts_available then
    match ftsQuery query limit with
    | .error e => .error e
    | .ok results => .ok (searchResponse query results)
  else .ok (searchResponse query (likeQuery query limit))

structure PageRow where
  path : String
  title : String
  url : String

def renderPageRow (r : PageRow) : String :=
  "• **" ++ r.title ++ "**\n  Path: " ++ r.path ++ "\n" ++
    (if r.url == r.path then "" else "  Original: " ++ r.url ++ "\n") ++ "\n"

/-- Shallow embedding of the `list_pages` tool (`server.py` lines 255-301).
`globQuery` models the two `SELECT` statements (total for every pattern). -/
def list_pages (globQuery : Option String → Int → List PageRow) (db_conn : Bool)
    (filter_pattern : Option String) (limit : Int) : String :=
  if !db_conn then "Error: Database not initialized"
  else
    let results := globQuery filter_pattern limit
    if results.isEmpty then "No pages found in archive"
    else
      "Archive contains " ++ toString results.length ++ " pages" ++
        (match filter_pattern with
         | some pat => " matching \x27" ++ pat ++ "\x27"
         | none => "") ++ ":\n\n" ++ String.join (results.map renderPageRow)

/-- Shallow embedding of the `get_archive_stats` tool (`server.py` lines
394-430).  `scan` models the filesystem walk computing (HTML file count,
other-file count, total size); `indexed` models the `COUNT(*)` query; the
whole body is wrapped in `try`/`except Exception`, so either fault becomes a
text payload. -/
def get_archive_stats (scan : Except PyErr (Nat × Nat × Nat))
    (indexed : Except PyErr Nat) (archive_path : Option (List String))
    (db_conn : Bool) (fts_available : Bool) : String :=
  match archive_path with
  | none => "Error: Archive not initialized"
  | some root =>
    if !db_conn then "Error: Archive not initialized"
    else
      match scan with
      | .error _ => "Error getting archive stats: ..."
      | .ok counts =>
        match indexed with
        | .error _ => "Error getting archive stats: ..."
        | .ok indexed_pages =>
          "# Archive Statistics\n\n**Archive Path:** " ++
            String.intercalate "/" root ++ "\n**HTML Pages:** " ++
            toString counts.1 ++ "\n**Other Files:** " ++ toString counts.2.1 ++
            "\n**Total Files:** " ++ toString (counts.1 + counts.2.1) ++
            "\n**Indexed Pages:** " ++ toString indexed_pages ++
            "\n**Total Size:** ... MB\n**Search Type:** " ++
            (if fts_available then "Full-text search (FTS5)" else "Basic search") ++
            "\n"

/-! ## Indexing (`server.py` lines 39-145)

One Document Record per page, keyed by the unique relative path; the record
fields are the columns of the `pages` table.  The modification time is an
opaque stored value, modelled as an integer.  Each HTML file under the
mirror is presented to the indexer as its relative path, its `Path.stem`,
its raw text and its modification time; title, visible text and canonical
URL are extracted by the BeautifulSoup collaborator.  `INSERT OR REPLACE`
keyed on the unique `path` column is an upsert. -/

structure HtmlFileInput where
  relPath : String
  stem : String
  content : String
  mtime : Int

structure DocRecord where
  title : String
  content : String
  url : String
  last_modified : Int
  deriving DecidableEq, Repr

abbrev Store := List (String × DocRecord)

/-- The Document Record `index_file` computes for one file (`server.py`
lines 102-130): title falls back to the stem, the canonical URL is used only
when the canonical link element exists and its `href` is truthy. -/
def index_record (soup : SoupOps) (f : HtmlFileInput) : DocRecord :=
  { title :=
      match soup.titleOf f.content with
      | some t => t
      | none => f.stem
    content := soup.textOf f.content
    url :=
      match soup.canonicalOf f.content with
      | some href => if href == "" then f.relPath else href
      | none => f.relPath
    last_modified := f.mtime }

/-- `INSERT OR REPLACE` into a table whose `path` column is unique. -/
def upsertRecord : Store → String → DocRecord → Store
  | [], path, r => [(path, r)]
  | e :: rest, path, r =>
    if e.1 == path then (path, r) :: rest else e :: upsertRecord rest path r

/-- Shallow embedding of `index_file` (`server.py` lines 102-145) acting on
the primary `pages` table (the optional FTS5 mirror carries the same three
text fields keyed to the same row). -/
def index_file (soup : SoupOps) (conn : Store) (f : HtmlFileInput) : Store :=
  upsertRecord conn f.relPath (index_record soup f)

/-- Shallow embedding of `rebuild_index` (`server.py` lines 92-99). -/
def rebuild_index (soup : SoupOps) (files : List HtmlFileInput) (conn : Store) : Store :=
  files.foldl (index_file soup) conn

/-- The indexing decision of `init_database` (`server.py` lines 82-89): the
index is rebuilt exactly when the `pages` table holds zero records. -/
def init_database (soup : SoupOps) (files : List HtmlFileInput) (conn : Store) : Store :=
  if conn.length == 0 then rebuild_index soup files conn else conn

def storeLookup (s : Store) (path : String) : Option DocRecord :=
  (s.find? (fun e => e.1 == path)).map (fun e => e.2)

def containsKey (s : Store) (path : String) : Bool :=
  s.any (fun e => e.1 == path)

/-- The manifest avoids both raising corners of `is_cache_valid`: its bytes
decode as text, and when it parses as JSON the top-level value is an
object. -/
def manifestObjOrBenign (fs : CacheFS) : Prop :=
  fs.manifest ≠ ManifestFile.undecodable ∧
    ∀ v, fs.manifest = ManifestFile.json v → ∃ fields, v = Json.obj fields

/-- The last input file carrying a given relative path, which determines the
stored record for that path after a rebuild. -/
def filesLast (files : List HtmlFileInput) (q : String) : Option HtmlFileInput :=
  files.reverse.find? (fun f => f.relPath == q)

/-- A trivial instantiation of the BeautifulSoup collaborator, used to
evaluate the tools on concrete inputs: no title element, the visible text is
the raw text, no anchors, no canonical link. -/
def soupPlain : SoupOps :=
  { titleOf := fun _ => none
    textOf := fun t => t
    anchorsOf := fun _ => []
    canonicalOf := fun _ => none }

/-- `DEFAULT_BASE_URL` from `cache.py`. -/
def DEFAULT_BASE_URL : String := "https://naif.jpl.nasa.gov/pub/naif/toolkit_docs/C/"

/-- A fetch outcome the retry loop reacts to by sleeping and retrying (when
attempts remain): a 5xx status, a connection error, or a timeout. -/
def isRetryable : FetchOutcome → Bool
  | .status code => decide (500 ≤ code)
  | .connectError => true
  | .timeoutError => true

/-- The exception the retry loop raises for a retryable outcome once the
attempt cap is reached. -/
def retryErr : FetchOutcome → PyErr
  | .status code => .httpStatusError code
  | .connectError => .connectError
  | .timeoutError => .timeoutError

/-- A fetch outcome `raise_for_status` accepts: a 2xx status. -/
def isSuccess : FetchOutcome → Bool
  | .status code => decide (200 ≤ code) && decide (code < 300)
  | _ => false

/-! # Theorems -/

/-- C4: `should_download` is a pure predicate over `(url, base_url)` — in this
embedding a total function of exactly those two strings, so determinism and
freedom from side effects are inherent — returning true iff the URL is
same-host as the base URL (a host-less relative URL counts as same-host), its
path lies under the fixed documentation path prefix, and the path ends in the
HTML extension or in a path separator.  An external host, a wrong path prefix
and a non-HTML suffix each independently force the result false. -/
theorem C4_should_download_pure_predicate :
    ∀ url base_url : String,
      (should_download url base_url = true ↔
        ((urlNetlocPath url).1 = "" ∨ (urlNetlocPath url).1 = (urlNetlocPath base_url).1) ∧
        pyStartsWith (urlNetlocPath url).2 "/pub/naif/toolkit_docs/C/" = true ∧
        (pyEndsWith (urlNetlocPath url).2 ".html" = true ∨
          pyEndsWith (urlNetlocPath url).2 "/" = true)) ∧
      ((urlNetlocPath url).1 ≠ "" → (urlNetlocPath url).1 ≠ (urlNetlocPath base_url).1 →
        should_download url base_url = false) ∧
      (pyStartsWith (urlNetlocPath url).2 "/pub/naif/toolkit_docs/C/" = false →
        should_download url base_url = false) ∧
      (pyEndsWith (urlNetlocPath url).2 ".html" = false →
        pyEndsWith (urlNetlocPath url).2 "/" = false →
        should_download url base_url = false) := by
  intro url base_url
  by_cases h1 : (urlNetlocPath url).1 = "" <;>
    by_cases h2 : (urlNetlocPath url).1 = (urlNetlocPath base_url).1 <;>
    by_cases h3 : pyStartsWith (urlNetlocPath url).2 "/pub/naif/toolkit_docs/C/" = true <;>
    by_cases h4 : pyEndsWith (urlNetlocPath url).2 ".html" = true <;>
    by_cases h5 : pyEndsWith (urlNetlocPath url).2 "/" = true <;>
    simp_all [should_download]

/-- Witness for C4 at concrete URLs: an in-scope page is accepted; an external
host, a wrong path and a non-HTML asset are each rejected. -/
theorem C4_witness :
    should_download "https://naif.jpl.nasa.gov/pub/naif/toolkit_docs/C/req/spk.html"
        DEFAULT_BASE_URL = true ∧
    should_download "https://example.com/pub/naif/toolkit_docs/C/req/spk.html"
        DEFAULT_BASE_URL = false ∧
    should_download "https://naif.jpl.nasa.gov/other/spk.html" DEFAULT_BASE_URL = false ∧
    should_download "https://naif.jpl.nasa.gov/pub/naif/toolkit_docs/C/img/x.png"
        DEFAULT_BASE_URL = false := by
  refine ⟨?_, ?_, ?_, ?_⟩
  · exact (C4_should_download_pure_predicate _ DEFAULT_BASE_URL).1.mpr
      (by refine ⟨Or.inr ?_, ?_, Or.inl ?_⟩ <;> decide)
  · exact (C4_should_download_pure_predicate _ DEFAULT_BASE_URL).2.1
      (by decide) (by decide)
  · exact (C4_should_download_pure_predicate _ DEFAULT_BASE_URL).2.2.1 (by decide)
  · exact (C4_should_download_pure_predicate _ DEFAULT_BASE_URL).2.2.2 (by decide) (by decide)

/-- C5 fails on the code: a manifest whose contents are malformed — valid
JSON whose top-level value is an array rather than an object — makes
`version_data.get` raise `AttributeError`, which the handler for
`json.JSONDecodeError` and `IOError` does not catch, so `is_cache_valid`
raises instead of returning false. -/
theorem C5_counterexample :
    is_cache_valid ⟨ManifestFile.json (Json.arr []), true, 600, fun h => Bool.noConfusion h⟩ =
      Except.error PyErr.attributeError ∧
    is_cache_valid ⟨ManifestFile.undecodable, true, 600, fun h => Bool.noConfusion h⟩ =
      Except.error PyErr.unicodeDecodeError :=
  ⟨rfl, rfl⟩

/-- C5 (amended): `is_cache_valid` never raises and returns false when the
manifest file is missing, unreadable (`IOError`), or decodable-but-not-valid
JSON (`json.JSONDecodeError`); the only ways it can raise are the
`UnicodeDecodeError` triggered by manifest bytes that do not decode as text
and the `AttributeError` triggered by a manifest parsing as a JSON value
that is not an object.  The check is side-effect-free (a pure function in
this embedding). -/
theorem C5_is_cache_valid_no_raise_amended :
    ∀ fs : CacheFS,
      (fs.manifest = ManifestFile.missing → is_cache_valid fs = .ok false) ∧
      (fs.manifest = ManifestFile.unreadable → is_cache_valid fs = .ok false) ∧
      (fs.manifest = ManifestFile.notJson → is_cache_valid fs = .ok false) ∧
      (∀ e, is_cache_valid fs = .error e ↔
        (e = PyErr.attributeError ∧
          ∃ v, fs.manifest = ManifestFile.json v ∧ ∀ fields, v ≠ Json.obj fields) ∨
        (e = PyErr.unicodeDecodeError ∧ fs.manifest = ManifestFile.undecodable)) := by
  intro fs
  refine ⟨fun h => by simp [is_cache_valid, h], fun h => by simp [is_cache_valid, h],
    fun h => by simp [is_cache_valid, h], fun e => ?_⟩
  constructor
  · intro h
    rcases hm : fs.manifest with _ | _ | _ | _ | v
    · simp [is_cache_valid, hm] at h
    · simp [is_cache_valid, hm] at h
    · simp [is_cache_valid, hm] at h
      exact Or.inr ⟨h.symm, rfl⟩
    · simp [is_cache_valid, hm] at h
    · rcases hv : v with _ | b | n | str | l | fields
      · simp [is_cache_valid, hm, hv] at h
        exact Or.inl ⟨h.symm, _, rfl, by simp⟩
      · simp [is_cache_valid, hm, hv] at h
        exact Or.inl ⟨h.symm, _, rfl, by simp⟩
      · simp [is_cache_valid, hm, hv] at h
        exact Or.inl ⟨h.symm, _, rfl, by simp⟩
      · simp [is_cache_valid, hm, hv] at h
        exact Or.inl ⟨h.symm, _, rfl, by simp⟩
      · simp [is_cache_valid, hm, hv] at h
        exact Or.inl ⟨h.symm, _, rfl, by simp⟩
      · rw [hv] at hm
        simp only [is_cache_valid, hm] at h
        split_ifs at h
  · rintro (⟨he, v, hm, hv⟩ | ⟨he, hm⟩)
    · subst he
      rcases hvv : v with _ | b | n | str | l | fields
      · simp [is_cache_valid, hm, hvv]
      · simp [is_cache_valid, hm, hvv]
      · simp [is_cache_valid, hm, hvv]
      · simp [is_cache_valid, hm, hvv]
      · simp [is_cache_valid, hm, hvv]
      · exact absurd hvv (hv fields)
    · subst he
      simp [is_cache_valid, hm]

/-- Witness for C5 (amended) at concrete cache states: each benign manifest
defect yields `.ok false`. -/
theorem C5_witness :
    is_cache_valid ⟨ManifestFile.missing, true, 600, fun h => Bool.noConfusion h⟩ = .ok false ∧
    is_cache_valid ⟨ManifestFile.unreadable, true, 600, fun h => Bool.noConfusion h⟩ = .ok false ∧
    is_cache_valid ⟨ManifestFile.notJson, true, 600, fun h => Bool.noConfusion h⟩ = .ok false :=
  ⟨(C5_is_cache_valid_no_raise_amended _).1 rfl,
   (C5_is_cache_valid_no_raise_amended _).2.1 rfl,
   (C5_is_cache_valid_no_raise_amended _).2.2.1 rfl⟩

/-- C8 fails on the code in its ordering part: the code checks the
documentation directory before counting HTML files, not after.  On a cache
state whose manifest is complete but whose documentation directory is absent
(hence zero HTML files), the claimed order would short-circuit at the
file-count check, while the code short-circuits at the directory check (its
debug log says so). -/
theorem C8_counterexample :
    is_cache_valid_firstFailure
        ⟨ManifestFile.json (Json.obj [("completed", Json.bool true)]), false, 0, fun _ => rfl⟩ =
      some CacheCheck.docDirMissing ∧
    claimOrder_firstFailure
        ⟨ManifestFile.json (Json.obj [("completed", Json.bool true)]), false, 0, fun _ => rfl⟩ =
      some CacheCheck.insufficientFiles ∧
    some CacheCheck.docDirMissing ≠ some CacheCheck.insufficientFiles :=
  ⟨rfl, rfl, by decide⟩

/-- C8 (amended): `is_cache_valid` returns false if any one of the following
holds: the manifest is absent; the completed flag of the (object) manifest is
falsy; the documentation directory is absent; the HTML file count is below
the fixed minimum — each condition independently suffices (the latter two
under the proviso that the manifest is in neither raising corner of C5:
undecodable bytes, which raise `UnicodeDecodeError`, or a valid-JSON
non-object, which raises `AttributeError`), and the checks short-circuit in
the order of the code: manifest, completed flag, documentation directory,
file count.  In particular, whenever the completed manifest check passes and
the directory is absent, the code blames the directory check, not the file
count. -/
theorem C8_is_cache_valid_invalidity_amended :
    ∀ fs : CacheFS,
      (fs.manifest = ManifestFile.missing → is_cache_valid fs = .ok false) ∧
      (∀ fields, fs.manifest = ManifestFile.json (Json.obj fields) →
        (jsonObjGet fields "completed" (Json.bool false)).truthy = false →
        is_cache_valid fs = .ok false) ∧
      (manifestObjOrBenign fs → fs.docDirExists = false → is_cache_valid fs = .ok false) ∧
      (manifestObjOrBenign fs → fs.htmlCount < MIN_FILE_COUNT →
        is_cache_valid fs = .ok false) ∧
      (∀ fields, fs.manifest = ManifestFile.json (Json.obj fields) →
        (jsonObjGet fields "completed" (Json.bool false)).truthy = true →
        fs.docDirExists = false →
        is_cache_valid_firstFailure fs = some CacheCheck.docDirMissing) ∧
      (manifestObjOrBenign fs →
        (is_cache_valid fs = .ok true ↔ is_cache_valid_firstFailure fs = none)) := by
  intro fs
  refine ⟨fun h => by simp [is_cache_valid, h], fun fields h hc => ?_, fun hb hd => ?_,
    fun hb hc => ?_, fun fields h hc hd => ?_, fun hb => ?_⟩
  · simp [is_cache_valid, h, hc]
  · rcases hm : fs.manifest with _ | _ | _ | _ | v
    · simp [is_cache_valid, hm]
    · simp [is_cache_valid, hm]
    · exact absurd hm hb.1
    · simp [is_cache_valid, hm]
    · obtain ⟨fields, rfl⟩ := hb.2 v hm
      simp [is_cache_valid, hm, hd]
  · rcases hm : fs.manifest with _ | _ | _ | _ | v
    · simp [is_cache_valid, hm]
    · simp [is_cache_valid, hm]
    · exact absurd hm hb.1
    · simp [is_cache_valid, hm]
    · obtain ⟨fields, rfl⟩ := hb.2 v hm
      by_cases hd : fs.docDirExists
      · simp [is_cache_valid, hm, hd, hc]
      · simp [is_cache_valid, hm, hd]
  · have h0 := fs.docDirAbsentNoFiles hd
    simp [is_cache_valid_firstFailure, h, hc, hd]
  · rcases hm : fs.manifest with _ | _ | _ | _ | v
    · simp [is_cache_valid, is_cache_valid_firstFailure, hm]
    · simp [is_cache_valid, is_cache_valid_firstFailure, hm]
    · exact absurd hm hb.1
    · simp [is_cache_valid, is_cache_valid_firstFailure, hm]
    · obtain ⟨fields, rfl⟩ := hb.2 v hm
      simp only [is_cache_valid, is_cache_valid_firstFailure, hm]
      split_ifs <;> simp

/-- Witness for C8 (amended) at concrete cache states: a missing manifest, an
uncompleted manifest, a missing documentation directory and a short file
count each yield `.ok false`, and the valid state is reported valid. -/
theorem C8_witness :
    is_cache_valid ⟨ManifestFile.missing, true, 600, fun h => Bool.noConfusion h⟩ = .ok false ∧
    is_cache_valid
        ⟨ManifestFile.json (Json.obj [("completed", Json.bool false)]), true, 600,
          fun h => Bool.noConfusion h⟩ = .ok false ∧
    is_cache_valid
        ⟨ManifestFile.json (Json.obj [("completed", Json.bool true)]), false, 0,
          fun _ => rfl⟩ = .ok false ∧
    is_cache_valid
        ⟨ManifestFile.json (Json.obj [("completed", Json.bool true)]), true, 10,
          fun h => Bool.noConfusion h⟩ = .ok false ∧
    is_cache_valid
        ⟨ManifestFile.json (Json.obj [("completed", Json.bool true)]), true, 600,
          fun h => Bool.noConfusion h⟩ = .ok true := by
  refine ⟨(C8_is_cache_valid_invalidity_amended _).1 rfl,
    (C8_is_cache_valid_invalidity_amended _).2.1 _ rfl (by decide),
    (C8_is_cache_valid_invalidity_amended _).2.2.1 ?_ rfl,
    (C8_is_cache_valid_invalidity_amended _).2.2.2.1 ?_ (by decide), ?_⟩
  · exact ⟨(fun h => nomatch h), fun v hv => ⟨_, by cases hv; rfl⟩⟩
  · exact ⟨(fun h => nomatch h), fun v hv => ⟨_, by cases hv; rfl⟩⟩
  · exact ((C8_is_cache_valid_invalidity_amended
      ⟨ManifestFile.json (Json.obj [("completed", Json.bool true)]), true, 600,
        fun h => Bool.noConfusion h⟩).2.2.2.2.2
      ⟨(fun h => nomatch h), fun v hv => ⟨_, by cases hv; rfl⟩⟩).mpr (by decide)

/-! ### Store lemmas for the indexer -/

theorem storeLookup_nil (q : String) : storeLookup [] q = none := rfl

theorem storeLookup_cons (e : String × DocRecord) (l : Store) (q : String) :
    storeLookup (e :: l) q = if e.1 = q then some e.2 else storeLookup l q := by
  by_cases h : e.1 = q <;> simp [storeLookup, List.find?_cons, h]

theorem upsertRecord_cons_hit (e : String × DocRecord) (l : Store) (p : String)
    (r : DocRecord) (h : e.1 = p) : upsertRecord (e :: l) p r = (p, r) :: l := by
  simp [upsertRecord, h]

theorem upsertRecord_cons_miss (e : String × DocRecord) (l : Store) (p : String)
    (r : DocRecord) (h : ¬e.1 = p) : upsertRecord (e :: l) p r = e :: upsertRecord l p r := by
  simp [upsertRecord, h]

theorem containsKey_nil (q : String) : containsKey [] q = false := rfl

theorem containsKey_cons (e : String × DocRecord) (l : Store) (q : String) :
    containsKey (e :: l) q = true ↔ e.1 = q ∨ containsKey l q = true := by
  simp [containsKey, List.any_cons]

theorem storeLookup_upsertRecord (s : Store) (p : String) (r : DocRecord) (q : String) :
    storeLookup (upsertRecord s p r) q = if q = p then some r else storeLookup s q := by
  induction s with
  | nil =>
    by_cases h : q = p
    · rw [show upsertRecord [] p r = [(p, r)] from rfl, storeLookup_cons,
        if_pos h.symm, if_pos h]
    · rw [show upsertRecord [] p r = [(p, r)] from rfl, storeLookup_cons,
        if_neg (fun hh : p = q => h hh.symm), if_neg h, storeLookup_nil]
  | cons e rest ih =>
    by_cases he : e.1 = p
    · rw [upsertRecord_cons_hit e rest p r he]
      by_cases hq : q = p
      · rw [storeLookup_cons, if_pos hq.symm, if_pos hq]
      · have h1 : ¬p = q := fun hh => hq hh.symm
        have h2 : ¬e.1 = q := fun hh => h1 (he.symm.trans hh)
        rw [storeLookup_cons, if_neg h1, if_neg hq, storeLookup_cons, if_neg h2]
    · rw [upsertRecord_cons_miss e rest p r he]
      by_cases hq : e.1 = q
      · have hqp : ¬q = p := fun hh => he (hq.trans hh)
        rw [storeLookup_cons, if_pos hq, if_neg hqp, storeLookup_cons, if_pos hq]
      · rw [storeLookup_cons, if_neg hq, ih]
        by_cases hqq : q = p
        · rw [if_pos hqq, if_pos hqq]
        · rw [if_neg hqq, if_neg hqq, storeLookup_cons, if_neg hq]

theorem containsKey_upsertRecord (s : Store) (p : String) (r : DocRecord) (q : String) :
    containsKey (upsertRecord s p r) q = true ↔ q = p ∨ containsKey s q = true := by
  induction s with
  | nil =>
    rw [show upsertRecord [] p r = [(p, r)] from rfl, containsKey_cons]
    constructor
    · rintro (h | h)
      · exact Or.inl h.symm
      · rw [containsKey_nil] at h
        exact absurd h (by simp)
    · rintro (h | h)
      · exact Or.inl h.symm
      · rw [containsKey_nil] at h
        exact absurd h (by simp)
  | cons e rest ih =>
    by_cases he : e.1 = p
    · rw [upsertRecord_cons_hit e rest p r he, containsKey_cons, containsKey_cons]
      constructor
      · rintro (h | h)
        · exact Or.inl h.symm
        · exact Or.inr (Or.inr h)
      · rintro (h | h | h)
        · exact Or.inl h.symm
        · exact Or.inl (he.symm.trans h)
        · exact Or.inr h
    · rw [upsertRecord_cons_miss e rest p r he, containsKey_cons, containsKey_cons, ih]
      tauto

theorem length_upsertRecord (s : Store) (p : String) (r : DocRecord) :
    (upsertRecord s p r).length =
      if containsKey s p = true then s.length else s.length + 1 := by
  induction s with
  | nil => simp [upsertRecord, containsKey]
  | cons e rest ih =>
    by_cases he : e.1 = p
    · rw [upsertRecord_cons_hit e rest p r he,
        if_pos ((containsKey_cons e rest p).mpr (Or.inl he))]
      simp
    · rw [upsertRecord_cons_miss e rest p r he]
      by_cases hc : containsKey rest p = true
      · rw [if_pos ((containsKey_cons e rest p).mpr (Or.inr hc))]
        simp [ih, hc]
      · have hnc : ¬containsKey (e :: rest) p = true := by
          rw [containsKey_cons]
          rintro (h | h)
          · exact he h
          · exact hc h
        rw [if_neg hnc]
        simp [ih, hc]

theorem containsKey_rebuild_index (soup : SoupOps) (files : List HtmlFileInput)
    (s : Store) (q : String) :
    containsKey (rebuild_index soup files s) q = true ↔
      containsKey s q = true ∨ ∃ f ∈ files, f.relPath = q := by
  induction files generalizing s with
  | nil => simp [rebuild_index]
  | cons f rest ih =>
    simp only [rebuild_index, List.foldl_cons] at ih ⊢
    rw [ih]
    simp only [index_file, containsKey_upsertRecord]
    constructor
    · rintro (⟨h | h⟩ | ⟨g, hg, hq⟩)
      · exact Or.inr ⟨f, List.mem_cons_self f rest, h.symm⟩
      · exact Or.inl h
      · exact Or.inr ⟨g, List.mem_cons_of_mem f hg, hq⟩
    · rintro (h | ⟨g, hg, hq⟩)
      · exact Or.inl (Or.inr h)
      · rcases List.mem_cons.mp hg with rfl | hg'
        · exact Or.inl (Or.inl hq.symm)
        · exact Or.inr ⟨g, hg', hq⟩

theorem length_rebuild_index_of_present (soup : SoupOps) (files : List HtmlFileInput)
    (s : Store) (h : ∀ f ∈ files, containsKey s f.relPath = true) :
    (rebuild_index soup files s).length = s.length := by
  induction files generalizing s with
  | nil => rfl
  | cons f rest ih =>
    simp only [rebuild_index, List.foldl_cons]
    rw [show (List.foldl (index_file soup) (index_file soup s f) rest) =
      rebuild_index soup rest (index_file soup s f) from rfl]
    rw [ih (index_file soup s f) ?_, index_file, length_upsertRecord,
      if_pos (h f (List.mem_cons_self f rest))]
    intro g hg
    rw [index_file]
    exact (containsKey_upsertRecord _ _ _ _).mpr (Or.inr (h g (List.mem_cons_of_mem f hg)))

theorem storeLookup_rebuild_index (soup : SoupOps) (files : List HtmlFileInput)
    (s : Store) (q : String) :
    storeLookup (rebuild_index soup files s) q =
      match filesLast files q with
      | some f => some (index_record soup f)
      | none => storeLookup s q := by
  induction files generalizing s with
  | nil => simp [rebuild_index, filesLast]
  | cons f rest ih =>
    simp only [rebuild_index, List.foldl_cons]
    rw [show (List.foldl (index_file soup) (index_file soup s f) rest) =
      rebuild_index soup rest (index_file soup s f) from rfl]
    rw [ih]
    have happ : filesLast (f :: rest) q =
        (filesLast rest q).or ((if f.relPath = q then some f else none)) := by
      simp only [filesLast, List.reverse_cons, List.find?_append]
      by_cases hf : f.relPath = q
      · have hb : (f.relPath == q) = true := by simpa using hf
        simp [List.find?, hb, hf]
      · have hb : (f.relPath == q) = false := by simpa using hf
        simp [List.find?, hb, hf]
    rw [happ]
    rcases hr : filesLast rest q with _ | g
    · simp only [Option.none_or]
      by_cases hf : f.relPath = q
      · rw [if_pos hf, index_file, storeLookup_upsertRecord, if_pos hf.symm]
      · rw [if_neg hf, index_file, storeLookup_upsertRecord,
          if_neg (fun hh : q = f.relPath => hf hh.symm)]
    · simp

/-- C7: indexing is idempotent — over any fixed set of mirror files
(unchanged contents, hence unchanged extracted fields and modification
times), running the indexer a second time leaves every stored record and the
record count exactly as after the first run — and `init_database` never
re-indexes a store that already holds records: the store being non-empty is
itself the already-built signal. -/
theorem C7_indexing_idempotent :
    ∀ (soup : SoupOps) (files : List HtmlFileInput) (s : Store),
      (∀ q, storeLookup (rebuild_index soup files (rebuild_index soup files s)) q =
        storeLookup (rebuild_index soup files s) q) ∧
      (rebuild_index soup files (rebuild_index soup files s)).length =
        (rebuild_index soup files s).length ∧
      (s ≠ [] → init_database soup files s = s) := by
  intro soup files s
  refine ⟨fun q => ?_, ?_, fun h => ?_⟩
  · rw [storeLookup_rebuild_index]
    rcases hl : filesLast files q with _ | g
    · rw [storeLookup_rebuild_index, hl]
    · rw [storeLookup_rebuild_index, hl]
  · apply length_rebuild_index_of_present
    intro f hf
    exact (containsKey_rebuild_index soup files s f.relPath).mpr (Or.inr ⟨f, hf, rfl⟩)
  · rw [init_database, if_neg]
    simp [h]

/-- Witness for C7: a non-empty store is returned untouched by
`init_database`, and re-indexing a concrete one-file mirror changes neither
the record count nor the looked-up record. -/
theorem C7_witness :
    init_database soupPlain [⟨"b.html", "b", "y", 1⟩]
        [("a.html", ⟨"T", "body", "a.html", 0⟩)] =
      [("a.html", ⟨"T", "body", "a.html", 0⟩)] ∧
    (rebuild_index soupPlain [⟨"a.html", "a", "x", 0⟩]
        (rebuild_index soupPlain [⟨"a.html", "a", "x", 0⟩] [])).length =
      (rebuild_index soupPlain [⟨"a.html", "a", "x", 0⟩] []).length ∧
    storeLookup (rebuild_index soupPlain [⟨"a.html", "a", "x", 0⟩]
        (rebuild_index soupPlain [⟨"a.html", "a", "x", 0⟩] [])) "a.html" =
      storeLookup (rebuild_index soupPlain [⟨"a.html", "a", "x", 0⟩] []) "a.html" :=
  ⟨(C7_indexing_idempotent soupPlain [⟨"b.html", "b", "y", 1⟩] _).2.2 (by simp),
   (C7_indexing_idempotent soupPlain [⟨"a.html", "a", "x", 0⟩] []).2.1,
   (C7_indexing_idempotent soupPlain [⟨"a.html", "a", "x", 0⟩] []).1 "a.html"⟩

/-! ### Retry-loop lemmas -/

theorem retryLoop_success_step (oracle : Nat → FetchOutcome) (m : Int) (attempt n : Nat)
    (h : isSuccess (oracle attempt) = true) :
    retryLoop oracle m attempt (n + 1) = (.returned attempt, [], 1) := by
  rcases ho : oracle attempt with c | _ | _ <;> rw [ho] at h <;> simp [isSuccess] at h
  simp [retryLoop, ho, h.1, h.2]

theorem retryLoop_retry_step (oracle : Nat → FetchOutcome) (m : Int) (attempt n : Nat)
    (h : isRetryable (oracle attempt) = true) (hguard : (attempt : Int) < m - 1) :
    retryLoop oracle m attempt (n + 1) =
      ((retryLoop oracle m (attempt + 1) n).1,
        2 ^ attempt :: (retryLoop oracle m (attempt + 1) n).2.1,
        (retryLoop oracle m (attempt + 1) n).2.2 + 1) := by
  rcases ho : oracle attempt with c | _ | _ <;> rw [ho] at h
  · simp only [isRetryable, decide_eq_true_eq] at h
    have h1 : ¬(200 ≤ c ∧ c < 300) := by omega
    have h2 : ¬c = 404 := by omega
    simp [retryLoop, ho, h1, h2, h, hguard]
  · simp [retryLoop, ho, hguard]
  · simp [retryLoop, ho, hguard]

theorem retryLoop_exhausted_step (oracle : Nat → FetchOutcome) (m : Int) (attempt n : Nat)
    (h : isRetryable (oracle attempt) = true) (hguard : ¬(attempt : Int) < m - 1) :
    retryLoop oracle m attempt (n + 1) =
      (.raised attempt (retryErr (oracle attempt)), [], 1) := by
  rcases ho : oracle attempt with c | _ | _ <;> rw [ho] at h
  · simp only [isRetryable, decide_eq_true_eq] at h
    have h1 : ¬(200 ≤ c ∧ c < 300) := by omega
    have h2 : ¬c = 404 := by omega
    simp [retryLoop, ho, h1, h2, h, hguard, retryErr]
  · simp [retryLoop, ho, hguard, retryErr]
  · simp [retryLoop, ho, hguard, retryErr]

theorem retryLoop_fatal_status (oracle : Nat → FetchOutcome) (m : Int) (attempt n c : Nat)
    (ho : oracle attempt = .status c) (h1 : ¬(200 ≤ c ∧ c < 300)) (h2 : c < 500) :
    retryLoop oracle m attempt (n + 1) =
      (.raised attempt (.httpStatusError c), [], 1) := by
  by_cases h4 : c = 404
  · subst h4
    simp [retryLoop, ho, h1]
  · have h5 : ¬500 ≤ c := by omega
    simp [retryLoop, ho, h1, h4, h5]

theorem retryLoop_reach (oracle : Nat → FetchOutcome) (m : Int) :
    ∀ (j attempt n : Nat),
      attempt + n = m.toNat → attempt + j < m.toNat →
      (∀ k, attempt ≤ k → k < attempt + j → isRetryable (oracle k) = true) →
      isSuccess (oracle (attempt + j)) = true →
      retryLoop oracle m attempt n =
        (.returned (attempt + j), (List.range' attempt j).map (fun a => 2 ^ a), j + 1) := by
  intro j
  induction j with
  | zero =>
    intro attempt n hsum hlt _ hsucc
    obtain ⟨n', rfl⟩ : ∃ n', n = n' + 1 := ⟨n - 1, by omega⟩
    rw [retryLoop_success_step oracle m attempt n' (by simpa using hsucc)]
    simp
  | succ j ih =>
    intro attempt n hsum hlt hretry hsucc
    obtain ⟨n', rfl⟩ : ∃ n', n = n' + 1 := ⟨n - 1, by omega⟩
    have hm : m = (m.toNat : Int) := by omega
    have hguard : (attempt : Int) < m - 1 := by omega
    rw [retryLoop_retry_step oracle m attempt n'
      (hretry attempt le_rfl (by omega)) hguard]
    rw [ih (attempt + 1) n' (by omega) (by omega)
      (fun k hk1 hk2 => hretry k (by omega) (by omega))
      (by rw [show attempt + 1 + j = attempt + (j + 1) from by omega]; exact hsucc)]
    rw [List.range'_succ]
    simp [show attempt + 1 + j = attempt + (j + 1) from by omega]

theorem retryLoop_exhaust (oracle : Nat → FetchOutcome) (m : Int) :
    ∀ (n attempt : Nat),
      attempt + n = m.toNat → 1 ≤ n →
      (∀ k, attempt ≤ k → k < m.toNat → isRetryable (oracle k) = true) →
      retryLoop oracle m attempt n =
        (.raised (m.toNat - 1) (retryErr (oracle (m.toNat - 1))),
          (List.range' attempt (n - 1)).map (fun a => 2 ^ a), n) := by
  intro n
  induction n with
  | zero => omega
  | succ n ih =>
    intro attempt hsum _ hretry
    have hm : m = (m.toNat : Int) := by omega
    rcases Nat.eq_zero_or_pos n with rfl | hn
    · have hguard : ¬(attempt : Int) < m - 1 := by omega
      rw [retryLoop_exhausted_step oracle m attempt 0
        (hretry attempt le_rfl (by omega)) hguard]
      have : attempt = m.toNat - 1 := by omega
      simp [this]
    · have hguard : (attempt : Int) < m - 1 := by omega
      rw [retryLoop_retry_step oracle m attempt n
        (hretry attempt le_rfl (by omega)) hguard]
      rw [ih (attempt + 1) (by omega) hn
        (fun k hk1 hk2 => hretry k (by omega) hk2)]
      rw [show n + 1 - 1 = (n - 1) + 1 from by omega, List.range'_succ]
      simp

theorem retryLoop_total (oracle : Nat → FetchOutcome) (m : Int) :
    ∀ (n attempt : Nat),
      attempt + n = m.toNat → 1 ≤ n →
      (retryLoop oracle m attempt n).1 ≠ .fellThrough ∧
      (∀ i, (retryLoop oracle m attempt n).1 = .returned i →
        isSuccess (oracle i) = true) := by
  intro n
  induction n with
  | zero => omega
  | succ n ih =>
    intro attempt hsum _
    by_cases hs : isSuccess (oracle attempt) = true
    · rw [retryLoop_success_step oracle m attempt n hs]
      exact ⟨by simp, fun i hi => by cases hi; exact hs⟩
    · by_cases hr : isRetryable (oracle attempt) = true
      · by_cases hguard : (attempt : Int) < m - 1
        · have hm : m = (m.toNat : Int) := by omega
          have hn : 1 ≤ n := by omega
          rw [retryLoop_retry_step oracle m attempt n hr hguard]
          exact ⟨(ih (attempt + 1) (by omega) hn).1,
            fun i hi => (ih (attempt + 1) (by omega) hn).2 i hi⟩
        · rw [retryLoop_exhausted_step oracle m attempt n hr hguard]
          exact ⟨by simp, fun i hi => by cases hi⟩
      · rcases ho : oracle attempt with c | _ | _ <;> rw [ho] at hs hr
        · simp only [isSuccess, isRetryable, Bool.and_eq_true, decide_eq_true_eq] at hs hr
          rw [retryLoop_fatal_status oracle m attempt n c ho (by omega) (by omega)]
          exact ⟨by simp, fun i hi => by cases hi⟩
        · simp [isRetryable] at hr
        · simp [isRetryable] at hr

/-- C3: the retry policy of `download_with_retry` — a 404 response is raised
after exactly one request (never retried); a run of 5xx responses followed by
a 2xx within the attempt cap yields the successful response, with base-2
exponential backoff sleeps of 1, 2, 4, ... seconds between attempts;
persistent 5xx responses, and persistent connection or timeout errors,
exhaust the cap with the same backoff and the last error is then raised as
fatal; any other HTTP error status is raised immediately without retry. -/
theorem C3_retry_policy :
    ∀ (oracle : Nat → FetchOutcome) (m : Int),
      (1 ≤ m → oracle 0 = .status 404 →
        download_with_retry oracle m = (.raised 0 (.httpStatusError 404), [], 1)) ∧
      (∀ j c, j < m.toNat →
        (∀ k, k < j → ∃ ck, oracle k = .status ck ∧ 500 ≤ ck) →
        oracle j = .status c → 200 ≤ c → c < 300 →
        download_with_retry oracle m =
          (.returned j, (List.range' 0 j).map (fun a => 2 ^ a), j + 1)) ∧
      (1 ≤ m → (∀ k, k < m.toNat → ∃ ck, oracle k = .status ck ∧ 500 ≤ ck) →
        download_with_retry oracle m =
          (.raised (m.toNat - 1) (retryErr (oracle (m.toNat - 1))),
            (List.range' 0 (m.toNat - 1)).map (fun a => 2 ^ a), m.toNat)) ∧
      (1 ≤ m → (∀ k, k < m.toNat → oracle k = .connectError ∨ oracle k = .timeoutError) →
        download_with_retry oracle m =
          (.raised (m.toNat - 1) (retryErr (oracle (m.toNat - 1))),
            (List.range' 0 (m.toNat - 1)).map (fun a => 2 ^ a), m.toNat)) ∧
      (∀ c, 1 ≤ m → oracle 0 = .status c → ¬(200 ≤ c ∧ c < 300) → c ≠ 404 → c < 500 →
        download_with_retry oracle m = (.raised 0 (.httpStatusError c), [], 1)) := by
  intro oracle m
  refine ⟨fun hm h404 => ?_, fun j c hj h5 hsucc hc1 hc2 => ?_, fun hm h5 => ?_,
    fun hm hce => ?_, fun c hm ho h1 h404 h5 => ?_⟩
  · obtain ⟨n', hn⟩ : ∃ n', m.toNat = n' + 1 := ⟨m.toNat - 1, by omega⟩
    rw [download_with_retry, hn,
      retryLoop_fatal_status oracle m 0 n' 404 h404 (by omega) (by omega)]
  · rw [download_with_retry,
      retryLoop_reach oracle m j 0 m.toNat (by omega) (by omega)
        (fun k hk1 hk2 => by
          obtain ⟨ck, hck, hck5⟩ := h5 k (by omega)
          simp [isRetryable, hck, hck5])
        (by simp [isSuccess, hsucc, hc1, hc2])]
    simp
  · rw [download_with_retry,
      retryLoop_exhaust oracle m m.toNat 0 (by omega) (by omega)
        (fun k hk1 hk2 => by
          obtain ⟨ck, hck, hck5⟩ := h5 k hk2
          simp [isRetryable, hck, hck5])]
  · rw [download_with_retry,
      retryLoop_exhaust oracle m m.toNat 0 (by omega) (by omega)
        (fun k hk1 hk2 => by
          rcases hce k hk2 with h | h <;> simp [isRetryable, h])]
  · obtain ⟨n', hn⟩ : ∃ n', m.toNat = n' + 1 := ⟨m.toNat - 1, by omega⟩
    rw [download_with_retry, hn, retryLoop_fatal_status oracle m 0 n' c ho h1 h5]

/-- Witness for C3 at concrete oracles with cap 3: a 404 raises after one
request; 503 then 200 returns the success on the second attempt after one
1-second sleep; persistent 500 exhausts three attempts with sleeps 1 and 2
then raises; a 403 raises after one request. -/
theorem C3_witness :
    download_with_retry (fun _ => FetchOutcome.status 404) 3 =
      (.raised 0 (.httpStatusError 404), [], 1) ∧
    download_with_retry (fun k => if k = 0 then FetchOutcome.status 503
      else FetchOutcome.status 200) 3 = (.returned 1, [1], 2) ∧
    download_with_retry (fun _ => FetchOutcome.status 500) 3 =
      (.raised 2 (.httpStatusError 500), [1, 2], 3) ∧
    download_with_retry (fun _ => FetchOutcome.status 403) 3 =
      (.raised 0 (.httpStatusError 403), [], 1) := by
  refine ⟨(C3_retry_policy _ 3).1 (by norm_num) rfl, ?_, ?_,
    (C3_retry_policy _ 3).2.2.2.2 403 (by norm_num) rfl (by omega) (by omega) (by omega)⟩
  · rw [(C3_retry_policy (fun k => if k = 0 then FetchOutcome.status 503
      else FetchOutcome.status 200) 3).2.1 1 200 (by norm_num)
      (fun k hk => by
        have hk0 : k = 0 := by omega
        subst hk0
        exact ⟨503, rfl, by norm_num⟩)
      rfl (by norm_num) (by norm_num)]
    decide
  · rw [(C3_retry_policy (fun _ => FetchOutcome.status 500) 3).2.2.1 (by norm_num)
      (fun k hk => ⟨500, rfl, by norm_num⟩)]
    decide

/-- C10: `download_with_retry` is total only under the precondition
`max_retries ≥ 1`: every such call either returns a response that passed the
2xx success check or raises; for `max_retries ≤ 0` the loop body never runs
and the Python function falls off the end, returning `None` after zero
requests, zero sleeps and no exception. -/
theorem C10_retry_totality :
    ∀ (oracle : Nat → FetchOutcome) (m : Int),
      (m ≤ 0 → download_with_retry oracle m = (.fellThrough, [], 0)) ∧
      (1 ≤ m →
        (download_with_retry oracle m).1 ≠ .fellThrough ∧
        (∀ i, (download_with_retry oracle m).1 = .returned i →
          isSuccess (oracle i) = true)) := by
  intro oracle m
  refine ⟨fun hm => ?_, fun hm => ?_⟩
  · have h0 : m.toNat = 0 := by omega
    rw [download_with_retry, h0]
    rfl
  · exact ⟨(retryLoop_total oracle m m.toNat 0 (by omega) (by omega)).1,
      fun i hi => (retryLoop_total oracle m m.toNat 0 (by omega) (by omega)).2 i hi⟩

/-- Witness for C10: with the cap 0 (and a negative cap) the loop never runs
and `None` comes back; with cap 1 the result is never the `None` fall-through. -/
theorem C10_witness :
    download_with_retry (fun _ => FetchOutcome.status 200) 0 = (.fellThrough, [], 0) ∧
    download_with_retry (fun _ => FetchOutcome.status 200) (-2) = (.fellThrough, [], 0) ∧
    (download_with_retry (fun _ => FetchOutcome.status 200) 1).1 ≠ .fellThrough :=
  ⟨(C10_retry_totality _ 0).1 (by norm_num),
   (C10_retry_totality _ (-2)).1 (by norm_num),
   ((C10_retry_totality _ 1).2 (by norm_num)).1⟩

/-! ### Crawl filesystem lemmas -/

theorem runOps_append (s : CrawlFS) (a b : List FsOp) :
    runOps s (a ++ b) = runOps (runOps s a) b := by
  induction a generalizing s with
  | nil => rfl
  | cons op rest ih => simp [runOps, ih]

theorem statesTrace_ne_nil (s : CrawlFS) (ops : List FsOp) : statesTrace s ops ≠ [] := by
  cases ops <;> simp [statesTrace]

theorem statesTrace_append (s : CrawlFS) (a b : List FsOp) :
    statesTrace s (a ++ b) =
      (statesTrace s a).dropLast ++ statesTrace (runOps s a) b := by
  induction a generalizing s with
  | nil => simp [statesTrace, runOps]
  | cons op rest ih =>
    show s :: statesTrace (applyOp s op) (rest ++ b) =
      (s :: statesTrace (applyOp s op) rest).dropLast ++
        statesTrace (runOps (applyOp s op) rest) b
    rw [List.dropLast_cons_of_ne_nil (statesTrace_ne_nil _ _), List.cons_append, ih]

/-- Operations of the crawl phase never touch the destination. -/
def destPreserves : FsOp → Bool
  | .rmtreeDest => false
  | .renameTmpToDest => false
  | _ => true

theorem applyOp_dest (s : CrawlFS) (op : FsOp) (h : destPreserves op = true) :
    (applyOp s op).dest = s.dest := by
  cases op <;> simp_all [applyOp, destPreserves]

theorem statesTrace_dest_const (ops : List FsOp) :
    ∀ s : CrawlFS, (∀ op ∈ ops, destPreserves op = true) →
      ∀ t ∈ statesTrace s ops, t.dest = s.dest := by
  induction ops with
  | nil =>
    intro s _ t ht
    simp [statesTrace] at ht
    rw [ht]
  | cons op rest ih =>
    intro s hops t ht
    rcases (by simpa [statesTrace] using ht : t = s ∨ t ∈ statesTrace (applyOp s op) rest)
      with rfl | ht'
    · rfl
    · rw [ih (applyOp s op) (fun o ho => hops o (List.mem_cons_of_mem op ho)) t ht',
        applyOp_dest s op (hops op (List.mem_cons_self op rest))]

theorem runOps_dest_const (ops : List FsOp) :
    ∀ s : CrawlFS, (∀ op ∈ ops, destPreserves op = true) →
      (runOps s ops).dest = s.dest := by
  induction ops with
  | nil => intro s _; rfl
  | cons op rest ih =>
    intro s hops
    rw [runOps, ih (applyOp s op) (fun o ho => hops o (List.mem_cons_of_mem op ho)),
      applyOp_dest s op (hops op (List.mem_cons_self op rest))]

theorem runOps_saves (d : Option MirrorTree) (t : MirrorTree)
    (pages : List (String × String)) :
    runOps ⟨d, some t⟩ (pages.map (fun pc => FsOp.saveTmpFile pc.1 pc.2)) =
      ⟨d, some (pages.foldl (fun u pc => treeWrite u pc.1 pc.2) t)⟩ := by
  induction pages generalizing t with
  | nil => rfl
  | cons pc rest ih => simp [runOps, applyOp, ih]

/-- The state reached after the preparation and crawl phases: the leftover
temporary directory removed, a fresh one created, the pages saved into it. -/
theorem runOps_crawl_phase (s : CrawlFS) (pages : List (String × String)) :
    runOps s ((if s.tmp.isSome then [FsOp.rmtreeTmp] else []) ++ [FsOp.mkdirTmp] ++
        pages.map (fun pc => FsOp.saveTmpFile pc.1 pc.2)) =
      ⟨s.dest, some (pages.foldl (fun u pc => treeWrite u pc.1 pc.2) [])⟩ := by
  rcases s with ⟨d, _ | t⟩ <;>
  · rw [runOps_append]
    exact runOps_saves d [] pages

/-- C1 fails on the code in its one-filesystem-operation part: when a prior
mirror exists at the destination, `download_documentation` replaces it with
`shutil.rmtree(cache_dir)` followed by `temp_dir.rename(cache_dir)` — two
destination-mutating filesystem operations, not one, with an intermediate
state in which the destination is absent.  The concrete run below crawls one
page over a pre-existing mirror. -/
theorem C1_counterexample :
    destOpCount (download_documentation ⟨some [("old.html", "o")], none⟩
        [("a.html", "x")] false "m") = 2 ∧
    (2 : Nat) ≠ 1 ∧
    ((statesTrace ⟨some [("old.html", "o")], none⟩
        (download_documentation ⟨some [("old.html", "o")], none⟩
          [("a.html", "x")] false "m")).any (fun t => t.dest.isNone)) = true := by
  refine ⟨by decide, by decide, by decide⟩

/-- C1 (amended): all crawl output is written under the temporary location,
never the final destination.  On success a manifest is written into the
temporary location; any prior mirror is then removed and the temporary
location renamed into place — the rename itself is a single atomic operation,
but replacing a pre-existing mirror takes a removal plus a rename, with an
intermediate state in which the destination is absent.  On any exception
during the crawl the temporary location is removed and the destination is
left exactly in its pre-crawl state.  At every intermediate point the
destination equals its pre-crawl state, is absent, or is the complete new
mirror — never a partially-written tree. -/
theorem C1_crawl_atomicity_amended :
    ∀ (s : CrawlFS) (pages : List (String × String)) (manifest : String),
      (runOps s (download_documentation s pages true manifest) =
        ⟨s.dest, none⟩ ∧
       ∀ t ∈ statesTrace s (download_documentation s pages true manifest),
         t.dest = s.dest) ∧
      (runOps s (download_documentation s pages false manifest) =
        ⟨some (crawledTree pages manifest), none⟩ ∧
       ∀ t ∈ statesTrace s (download_documentation s pages false manifest),
         t.dest = s.dest ∨ t.dest = none ∨ t.dest = some (crawledTree pages manifest)) := by
  intro s pages manifest
  constructor
  · constructor
    · rw [show download_documentation s pages true manifest =
        ((if s.tmp.isSome then [FsOp.rmtreeTmp] else []) ++ [FsOp.mkdirTmp] ++
          pages.map (fun pc => FsOp.saveTmpFile pc.1 pc.2)) ++ [FsOp.rmtreeTmp] from by
          simp [download_documentation]]
      rw [runOps_append, runOps_crawl_phase]
      rfl
    · intro t ht
      refine statesTrace_dest_const _ s ?_ t ht
      intro op hop
      simp only [download_documentation] at hop
      rcases List.mem_append.mp hop with h | h
      · rcases List.mem_append.mp h with h' | h'
        · rcases List.mem_append.mp h' with h'' | h''
          · split_ifs at h'' <;> simp_all [destPreserves]
          · simp_all [destPreserves]
        · obtain ⟨pc, _, rfl⟩ := List.mem_map.mp h'
          rfl
      · simp_all [destPreserves]
  · constructor
    · rw [show download_documentation s pages false manifest =
        ((if s.tmp.isSome then [FsOp.rmtreeTmp] else []) ++ [FsOp.mkdirTmp] ++
          pages.map (fun pc => FsOp.saveTmpFile pc.1 pc.2)) ++
        ([FsOp.writeManifestTmp manifest] ++
          (if s.dest.isSome then [FsOp.rmtreeDest] else []) ++
          [FsOp.renameTmpToDest]) from by
          simp [download_documentation]]
      rw [runOps_append, runOps_crawl_phase]
      rcases hd : s.dest with _ | d
      · simp [runOps, applyOp, crawledTree]
      · simp [runOps, applyOp, crawledTree]
    · intro t ht
      rw [show download_documentation s pages false manifest =
        ((if s.tmp.isSome then [FsOp.rmtreeTmp] else []) ++ [FsOp.mkdirTmp] ++
          pages.map (fun pc => FsOp.saveTmpFile pc.1 pc.2)) ++
        ([FsOp.writeManifestTmp manifest] ++
          (if s.dest.isSome then [FsOp.rmtreeDest] else []) ++
          [FsOp.renameTmpToDest]) from by
          simp [download_documentation]] at ht
      rw [statesTrace_append, runOps_crawl_phase] at ht
      rcases List.mem_append.mp ht with h | h
      · left
        refine statesTrace_dest_const _ s ?_ t (List.dropLast_subset _ h)
        intro op hop
        rcases List.mem_append.mp hop with h' | h'
        · rcases List.mem_append.mp h' with h'' | h''
          · split_ifs at h'' <;> simp_all [destPreserves]
          · simp_all [destPreserves]
        · obtain ⟨pc, _, rfl⟩ := List.mem_map.mp h'
          rfl
      · rcases hd : s.dest with _ | d <;> rw [hd] at h <;>
          simp [statesTrace, applyOp, List.mem_cons] at h
        · rcases h with rfl | rfl | rfl
          · exact Or.inr (Or.inl rfl)
          · exact Or.inr (Or.inl rfl)
          · exact Or.inr (Or.inr (by simp [crawledTree]))
        · rcases h with rfl | rfl | rfl | rfl
          · exact Or.inl rfl
          · exact Or.inl rfl
          · exact Or.inr (Or.inl rfl)
          · exact Or.inr (Or.inr (by simp [crawledTree]))

/-- Witness for C1 (amended) at a concrete run: a failing crawl over a
pre-existing mirror leaves that mirror untouched and removes the temporary
directory, and every intermediate destination state of a successful run over
a pre-existing mirror is the old mirror, absent, or the complete new one. -/
theorem C1_witness :
    runOps ⟨some [("old.html", "o")], none⟩
        (download_documentation ⟨some [("old.html", "o")], none⟩
          [("a.html", "x")] true "m") =
      ⟨some [("old.html", "o")], none⟩ ∧
    ((⟨none, some [("a.html", "x"), (".cache_version", "m")]⟩ : CrawlFS).dest =
        (⟨some [("old.html", "o")], none⟩ : CrawlFS).dest ∨
      (⟨none, some [("a.html", "x"), (".cache_version", "m")]⟩ : CrawlFS).dest = none ∨
      (⟨none, some [("a.html", "x"), (".cache_version", "m")]⟩ : CrawlFS).dest =
        some (crawledTree [("a.html", "x")] "m")) :=
  ⟨(C1_crawl_atomicity_amended ⟨some [("old.html", "o")], none⟩
      [("a.html", "x")] "m").1.1,
   (C1_crawl_atomicity_amended ⟨some [("old.html", "o")], none⟩
      [("a.html", "x")] "m").2.2
      ⟨none, some [("a.html", "x"), (".cache_version", "m")]⟩ (by decide)⟩

/-- C2 fails on the code as literally stated: a path containing a `../`
sequence that still resolves inside the mirror root is served normally — the
tool returns the page content payload, not an error result.  (The underlying
security property — no content from outside the root — is untouched; see the
amended theorem.) -/
theorem C2_counterexample :
    get_page soupPlain ⟨[(["a", "index.html"], Except.ok "<html>")], [["a"]]⟩
        (some ["a"]) "sub/../index.html" false =
      "# index\n\n**Path:** sub/../index.html\n**File size:** 6 bytes\n\n**Content:**\n<html>" ∧
    pyStartsWith
      (get_page soupPlain ⟨[(["a", "index.html"], Except.ok "<html>")], [["a"]]⟩
        (some ["a"]) "sub/../index.html" false) "Error" = false :=
  ⟨by decide, by decide⟩

/-- C2 (amended): for every input path whose resolution escapes the mirror
root — whether through `../` sequences or an absolute filesystem path —
`get_page` and `extract_links` return their descriptive error payloads; and
for every input whatsoever, each tool either returns one of its fixed error
payloads or returns a payload derived from a file that lies inside the mirror
root — file content from outside the root is never returned. -/
theorem C2_path_safety_amended :
    ∀ (soup : SoupOps) (fs : ArchiveFS) (root : List String) (path : String)
      (include_raw internal_only : Bool),
      (root.isPrefixOf (resolveUserPath root path) = false →
        get_page soup fs (some root) path include_raw =
          "Error: Path \x27" ++ path ++ "\x27 is outside the archive or invalid" ∧
        extract_links soup fs (some root) path internal_only =
          "Error: Invalid path \x27" ++ path ++ "\x27") ∧
      ((root.isPrefixOf (resolveUserPath root path) = true ∧
        ∃ c, readFile fs (resolveUserPath root path) = .ok c ∧
          get_page soup fs (some root) path include_raw =
            pageResponse soup (resolveUserPath root path) path include_raw c) ∨
       get_page soup fs (some root) path include_raw =
         "Error: Path \x27" ++ path ++ "\x27 is outside the archive or invalid" ∨
       get_page soup fs (some root) path include_raw =
         "Error: File \x27" ++ path ++ "\x27 not found in archive" ∨
       get_page soup fs (some root) path include_raw =
         "Error reading file \x27" ++ path ++ "\x27: ...") ∧
      ((root.isPrefixOf (resolveUserPath root path) = true ∧
        ∃ c, readFile fs (resolveUserPath root path) = .ok c ∧
          extract_links soup fs (some root) path internal_only =
            linksResponse path internal_only
              (extract_links_list fs root (soup.anchorsOf c) path internal_only)) ∨
       extract_links soup fs (some root) path internal_only =
         "Error: Invalid path \x27" ++ path ++ "\x27" ∨
       extract_links soup fs (some root) path internal_only =
         "Error: File \x27" ++ path ++ "\x27 not found" ∨
       extract_links soup fs (some root) path internal_only =
         "Error extracting links from \x27" ++ path ++ "\x27: ...") := by
  intro soup fs root path include_raw internal_only
  refine ⟨fun hesc => ⟨by simp [get_page, hesc], by simp [extract_links, hesc]⟩, ?_, ?_⟩
  · by_cases hp : root.isPrefixOf (resolveUserPath root path) = true
    · by_cases he : pathExists fs (resolveUserPath root path) = true
      · rcases hr : readFile fs (resolveUserPath root path) with e | c
        · right
          right
          right
          simp [get_page, hp, he, hr]
        · left
          exact ⟨hp, c, rfl, by simp [get_page, hp, he, hr]⟩
      · right
        right
        left
        have he' : pathExists fs (resolveUserPath root path) = false := by simpa using he
        simp [get_page, hp, he']
    · right
      left
      have hp' : root.isPrefixOf (resolveUserPath root path) = false := by
        cases hb : root.isPrefixOf (resolveUserPath root path)
        · rfl
        · exact absurd hb hp
      simp [get_page, hp']
  · by_cases hp : root.isPrefixOf (resolveUserPath root path) = true
    · by_cases he : pathExists fs (resolveUserPath root path) = true
      · rcases hr : readFile fs (resolveUserPath root path) with e | c
        · right
          right
          right
          simp [extract_links, hp, he, hr]
        · left
          exact ⟨hp, c, rfl, by simp [extract_links, hp, he, hr]⟩
      · right
        right
        left
        have he' : pathExists fs (resolveUserPath root path) = false := by simpa using he
        simp [extract_links, hp, he']
    · right
      left
      have hp' : root.isPrefixOf (resolveUserPath root path) = false := by
        cases hb : root.isPrefixOf (resolveUserPath root path)
        · rfl
        · exact absurd hb hp
      simp [extract_links, hp']

/-- Witness for C2 (amended) at a concrete escaping input: the classic
`../../etc/passwd` traversal is answered with the error payloads of both
tools. -/
theorem C2_witness :
    get_page soupPlain ⟨[(["a", "index.html"], Except.ok "<html>")], [["a"]]⟩
        (some ["a"]) "../../etc/passwd" false =
      "Error: Path \x27" ++ "../../etc/passwd" ++ "\x27 is outside the archive or invalid" ∧
    extract_links soupPlain ⟨[(["a", "index.html"], Except.ok "<html>")], [["a"]]⟩
        (some ["a"]) "../../etc/passwd" true =
      "Error: Invalid path \x27" ++ "../../etc/passwd" ++ "\x27" :=
  (C2_path_safety_amended soupPlain ⟨[(["a", "index.html"], Except.ok "<html>")], [["a"]]⟩
    ["a"] "../../etc/passwd" false true).1 (by decide)

/-- C9 fails on the code in its existing-file part: the internal-link filter
tests `full_link_path.exists()`, which is also true for directories, so a
link resolving to a directory inside the mirror (here `subdir`) is kept even
though it is not an existing file and not a fragment anchor. -/
theorem C9_counterexample :
    extract_links_list ⟨[(["a", "page.html"], Except.ok "x")], [["a"], ["a", "subdir"]]⟩
        ["a"] [("subdir", "Sub")] "page.html" true = [("subdir", "Sub")] ∧
    isFile ⟨[(["a", "page.html"], Except.ok "x")], [["a"], ["a", "subdir"]]⟩
        (linkResolved ["a"] "page.html" (stripFragQuery "subdir")) = false ∧
    pyStartsWith "subdir" "#" = false :=
  ⟨by decide, by decide, by decide⟩

/-- C9 (amended): with `internal_only` set, every link `extract_links` keeps
is a non-`http` reference that is either a same-page fragment-only anchor or
resolves — after stripping fragment and query, with relative references
resolved against the current file directory and leading-slash references
against the archive root — to an existing filesystem entry (file or
directory) inside the mirror root; in particular every `http`-scheme
external link is dropped in this mode. -/
theorem C9_internal_links_amended :
    ∀ (fs : ArchiveFS) (root : List String) (anchors : List (String × String))
      (path href text : String),
      (href, text) ∈ extract_links_list fs root anchors path true →
      pyStartsWith href "http" = false ∧
      (stripFragQuery href = "" ∧ pyStartsWith href "#" = true ∨
        stripFragQuery href ≠ "" ∧
          root.isPrefixOf (linkResolved root path (stripFragQuery href)) = true ∧
          pathExists fs (linkResolved root path (stripFragQuery href)) = true) := by
  intro fs root anchors path href text hmem
  have hkeep : keepAnchor fs root path true href = true :=
    (List.mem_filter.mp hmem).2
  by_cases h1 : pyStartsWith href "http" = true
  · rw [keepAnchor] at hkeep
    simp [h1] at hkeep
  · by_cases h2 : stripFragQuery href = ""
    · rw [keepAnchor] at hkeep
      simp [h1, h2] at hkeep
      exact ⟨by simpa using h1, Or.inl ⟨h2, hkeep⟩⟩
    · rw [keepAnchor] at hkeep
      simp [h1, h2] at hkeep
      refine ⟨by simpa using h1, Or.inr ⟨h2, ?_, ?_⟩⟩
      · first
        | exact hkeep.1
        | simpa using hkeep.1
      · exact hkeep.2

/-- Witness for C9 (amended) at a concrete page: a same-page anchor kept by
the filter is certified non-external and fragment-only. -/
theorem C9_witness :
    pyStartsWith "#top" "http" = false ∧
    (stripFragQuery "#top" = "" ∧ pyStartsWith "#top" "#" = true ∨
      stripFragQuery "#top" ≠ "" ∧
        ["a"].isPrefixOf (linkResolved ["a"] "page.html" (stripFragQuery "#top")) = true ∧
        pathExists ⟨[(["a", "page.html"], Except.ok "x")], [["a"]]⟩
          (linkResolved ["a"] "page.html" (stripFragQuery "#top")) = true) :=
  C9_internal_links_amended ⟨[(["a", "page.html"], Except.ok "x")], [["a"]]⟩
    ["a"] [("#top", "t")] "page.html" "#top" "t" (by decide)

/-- C6 fails on the code in two places.  First, `search_archive` wraps its
FTS5 `MATCH` query in no `try`/`except`, and sqlite raises
`sqlite3.OperationalError` on a malformed match pattern (an empty query, an
unbalanced double quote), so that fault propagates out of the tool to the
transport layer — the repository test suite itself allows this
(`test_security.py` checks `search_archive` with an empty query using
`raise_on_error=False` and accepts an error result).  Second, the claimed
sole exception is wrong the other way: an uninitialized store is not
signaled as a hard failure but answered with the descriptive text payload
`Error: Database not initialized`. -/
theorem C6_counterexample :
    search_archive (fun _ _ => Except.error PyErr.operationalError) (fun _ _ => [])
        true true "" 10 = Except.error PyErr.operationalError ∧
    search_archive (fun _ _ => Except.error PyErr.operationalError) (fun _ _ => [])
        false true "" 10 = Except.ok "Error: Database not initialized" :=
  ⟨rfl, rfl⟩

/-- C6 (amended): every caller-facing tool operation turns its internal
failures into descriptive text — an uninitialized store or archive is
answered with an initialization-error text payload (not a raised fault), a
failing filesystem read inside `get_page` or `extract_links` becomes an
error text, a failing scan or store query inside `get_archive_stats` becomes
an error text, `list_pages` is total for every pattern, and `search_archive`
without the FTS5 capability is total for every query — with the sole
exception that `search_archive` under FTS5 propagates a store-level query
fault (malformed `MATCH` syntax) to the transport layer. -/
theorem C6_tool_errors_amended :
    ∀ (ftsQuery : String → Int → Except PyErr (List SearchRow))
      (likeQuery : String → Int → List SearchRow)
      (globQuery : Option String → Int → List PageRow)
      (soup : SoupOps) (fs : ArchiveFS) (root : List String)
      (scan : Except PyErr (Nat × Nat × Nat)) (indexed : Except PyErr Nat)
      (query path : String) (limit : Int)
      (b fts include_raw internal_only : Bool) (pat : Option String),
      (search_archive ftsQuery likeQuery false fts query limit =
        .ok "Error: Database not initialized") ∧
      (list_pages globQuery false pat limit = "Error: Database not initialized") ∧
      (get_page soup fs none path include_raw = "Error: Archive path not initialized") ∧
      (extract_links soup fs none path internal_only =
        "Error: Archive path not initialized") ∧
      (get_archive_stats scan indexed none b fts = "Error: Archive not initialized") ∧
      (get_archive_stats scan indexed (some root) false fts =
        "Error: Archive not initialized") ∧
      (∃ s, search_archive ftsQuery likeQuery b false query limit = .ok s) ∧
      (root.isPrefixOf (resolveUserPath root path) = true →
        pathExists fs (resolveUserPath root path) = true →
        ∀ e, readFile fs (resolveUserPath root path) = .error e →
        get_page soup fs (some root) path include_raw =
          "Error reading file \x27" ++ path ++ "\x27: ..." ∧
        extract_links soup fs (some root) path internal_only =
          "Error extracting links from \x27" ++ path ++ "\x27: ...") ∧
      (∀ e, scan = .error e →
        get_archive_stats scan indexed (some root) true fts =
          "Error getting archive stats: ...") ∧
      (∀ e, indexed = .error e →
        get_archive_stats scan indexed (some root) true fts =
          "Error getting archive stats: ...") := by
  intro ftsQuery likeQuery globQuery soup fs root scan indexed query path limit
    b fts include_raw internal_only pat
  refine ⟨by simp [search_archive], by simp [list_pages], rfl, rfl, rfl, ?_, ?_,
    fun hp he e hr => ⟨by simp [get_page, hp, he, hr], by simp [extract_links, hp, he, hr]⟩,
    fun e hs => ?_, fun e hi => ?_⟩
  · cases b <;> rfl
  · cases b <;> simp [search_archive, searchResponse]
  · simp [get_archive_stats, hs]
  · rcases scan with e' | counts
    · simp [get_archive_stats]
    · simp [get_archive_stats, hi]

/-- Witness for C6 (amended) at concrete inputs: a directory where a file
was expected (a failing read) yields error text from `get_page`, a failing
scan yields error text from `get_archive_stats`, and a search without the
FTS5 capability returns text for the empty query. -/
theorem C6_witness :
    get_page soupPlain ⟨[], [["a"], ["a", "subdir"]]⟩ (some ["a"]) "subdir" false =
      "Error reading file \x27" ++ "subdir" ++ "\x27: ..." ∧
    get_archive_stats (Except.error PyErr.ioError) (Except.ok 6) (some ["a"]) true true =
      "Error getting archive stats: ..." ∧
    ∃ s, search_archive (fun _ _ => Except.error PyErr.operationalError) (fun _ _ => [])
      true false "" 10 = Except.ok s :=
  ⟨((C6_tool_errors_amended (fun _ _ => Except.error PyErr.operationalError)
      (fun _ _ => []) (fun _ _ => []) soupPlain ⟨[], [["a"], ["a", "subdir"]]⟩ ["a"]
      (Except.error PyErr.ioError) (Except.ok 6) "" "subdir" 10 true true false false
      none).2.2.2.2.2.2.2.1 (by decide) (by decide) PyErr.ioError rfl).1,
   (C6_tool_errors_amended (fun _ _ => Except.error PyErr.operationalError)
      (fun _ _ => []) (fun _ _ => []) soupPlain ⟨[], [["a"], ["a", "subdir"]]⟩ ["a"]
      (Except.error PyErr.ioError) (Except.ok 6) "" "subdir" 10 true true false false
      none).2.2.2.2.2.2.2.2.1 PyErr.ioError rfl,
   (C6_tool_errors_amended (fun _ _ => Except.error PyErr.operationalError)
      (fun _ _ => []) (fun _ _ => []) soupPlain ⟨[], [["a"], ["a", "subdir"]]⟩ ["a"]
      (Except.error PyErr.ioError) (Except.ok 6) "" "subdir" 10 true false false false
      none).2.2.2.2.2.2.1⟩

end SpiceDocs
